import Mathlib

/-!
Shallow embedding of the PenguinBlur backend job-lifecycle code
(backend/src/services/cleanup.ts, backend/src/routes/upload.ts,
backend/src/routes/video.ts, backend/src/services/videoProcessing.ts)
together with theorems settling the specification claims about it.

Times are modelled as natural numbers (milliseconds since epoch, as in
JavaScript Date.getTime()).  The in-memory JavaScript Map objects are
modelled as association lists with first-match lookup, replace-first
insertion and delete-all-matches removal; under the no-duplicate-keys
invariant that a JavaScript Map maintains these agree with Map.get,
Map.set and Map.delete.  The temporary-storage directory is modelled as
an association list from file path to mtime.
-/

namespace PenguinBlur

/-- Job status, from the FileJob interface in cleanup.ts:
status is one of processing, completed, failed. -/
inductive Status
  | processing
  | completed
  | failed
  deriving DecidableEq, Repr

/-- The FileJob record of cleanup.ts: id, filePath, optional outputPath,
createdAt, expiresAt, status. -/
structure FileJob where
  id : String
  filePath : String
  outputPath : Option String
  createdAt : Nat
  expiresAt : Nat
  status : Status
  deriving DecidableEq, Repr

/-- Lookup in a JavaScript Map: the value of the first entry with the
given key, if any. -/
def mapGet {α : Type} (m : List (String × α)) (k : String) : Option α :=
  match m with
  | [] => none
  | p :: t => if p.1 = k then some p.2 else mapGet t k

/-- JavaScript Map.set: replace the first entry with the given key, or
append a new entry when the key is absent. -/
def mapSet {α : Type} (m : List (String × α)) (k : String) (v : α) :
    List (String × α) :=
  match m with
  | [] => [(k, v)]
  | p :: t => if p.1 = k then (k, v) :: t else p :: mapSet t k v

/-- JavaScript Map.delete: drop every entry with the given key. -/
def mapDelete {α : Type} (m : List (String × α)) (k : String) :
    List (String × α) :=
  match m with
  | [] => []
  | p :: t => if p.1 = k then mapDelete t k else p :: mapDelete t k

/-- A JavaScript number as far as the processingProgress map is
concerned: the values the program stores are the integer literals 0,
30 and 100 from direct broadcasts, and NaN from the stage-progress
callback (see stageCallback). -/
inductive JSNumber
  | nan
  | int (n : ℤ)
  deriving DecidableEq, Repr

/-- The mutable server state the claims are about: the CleanupService
activeJobs map, the processingProgress map of routes/video.ts, and the
listing of the shared temporary directory (path with mtime). -/
structure ServerState where
  jobs : List (String × FileJob)
  progress : List (String × JSNumber)
  files : List (String × Nat)
  deriving DecidableEq, Repr

/-- CleanupService.addJob: unconditionally stores the record under its
id (Map.set semantics). -/
def addJob (s : ServerState) (job : FileJob) : ServerState :=
  { s with jobs := mapSet s.jobs job.id job }

/-- CleanupService.updateJobStatus: when the job exists, replace its
status and, only when an outputPath argument is supplied, its
outputPath; no-op otherwise.  The code never clears outputPath. -/
def updateJobStatus (s : ServerState) (jobId : String) (status : Status)
    (outputPath : Option String) : ServerState :=
  match mapGet s.jobs jobId with
  | none => s
  | some job =>
      let job2 := { job with
        status := status,
        outputPath := match outputPath with
          | some p => some p
          | none => job.outputPath }
      { s with jobs := mapSet s.jobs jobId job2 }

/-- CleanupService.deleteFileIfExists, acting on the modelled directory
listing: remove the entries at the given path. -/
def deleteFileIfExists (files : List (String × Nat)) (path : String) :
    List (String × Nat) :=
  match files with
  | [] => []
  | f :: t => if f.1 = path then deleteFileIfExists t path
              else f :: deleteFileIfExists t path

/-- CleanupService.removeJob: when the job exists, delete its filePath
and (when set) outputPath from disk, then drop the record. -/
def removeJob (s : ServerState) (jobId : String) : ServerState :=
  match mapGet s.jobs jobId with
  | none => s
  | some job =>
      let files1 := deleteFileIfExists s.files job.filePath
      let files2 := match job.outputPath with
        | some out => deleteFileIfExists files1 out
        | none => files1
      { s with jobs := mapDelete s.jobs jobId, files := files2 }

/-- CleanupService.getJob: plain map lookup, with no expiry check. -/
def getJob (s : ServerState) (jobId : String) : Option FileJob :=
  mapGet s.jobs jobId

/-- The selection loop of CleanupService.cleanup: the ids of the
records with now strictly past expiresAt, in registry order. -/
def expiredJobs (jobs : List (String × FileJob)) (now : Nat) : List String :=
  match jobs with
  | [] => []
  | p :: t => if now > p.2.expiresAt then p.1 :: expiredJobs t now
              else expiredJobs t now

/-- The loop body of CleanupService.cleanupTempFiles: delete every file
in the shared temporary directory whose age exceeds expiryTimeMs. -/
def cleanupTempFilesList (files : List (String × Nat))
    (expiryTimeMs now : Nat) : List (String × Nat) :=
  match files with
  | [] => []
  | f :: t => if now - f.2 > expiryTimeMs then cleanupTempFilesList t expiryTimeMs now
              else f :: cleanupTempFilesList t expiryTimeMs now

/-- CleanupService.cleanupTempFiles lifted to the server state. -/
def cleanupTempFiles (s : ServerState) (expiryTimeMs now : Nat) : ServerState :=
  { s with files := cleanupTempFilesList s.files expiryTimeMs now }

/-- CleanupService.cleanup: collect the expired ids from a snapshot of
the registry, remove each via removeJob, then run the orphan
temp-file pass. -/
def cleanup (s : ServerState) (expiryTimeMs now : Nat) : ServerState :=
  cleanupTempFiles ((expiredJobs s.jobs now).foldl removeJob s) expiryTimeMs now

/-- Outcome of POST /api/video/process/:fileId. -/
inductive ProcessResult
  | notFound
  | alreadyProcessing
  | started
  deriving DecidableEq, Repr

/-- Outcome of POST /api/video/cancel/:fileId. -/
inductive CancelResult
  | notFound
  | notProcessing
  | cancelled
  deriving DecidableEq, Repr

/-- The data object of the GET /api/video/status/:fileId response. -/
structure StatusData where
  status : Status
  timeRemaining : Nat
  downloadUrl : Bool
  progress : Int
  deriving DecidableEq, Repr

/-- Outcome of GET /api/video/status/:fileId. -/
inductive StatusResult
  | notFound
  | ok (d : StatusData)
  deriving DecidableEq, Repr

/-- The progress field of a status response, when the job was found. -/
def reportedProgress : StatusResult → Option Int
  | StatusResult.notFound => none
  | StatusResult.ok d => some d.progress

/-- routes/video.ts getProcessingProgress: the stored map entry with a
default of 0 via the JavaScript or-operator; a missing entry, a stored
0 and a stored NaN are all falsy and yield 0. -/
def getProcessingProgress (s : ServerState) (fileId : String) : Int :=
  match mapGet s.progress fileId with
  | none => 0
  | some JSNumber.nan => 0
  | some (JSNumber.int n) => n

/-- routes/video.ts broadcastProgress: record the progress value in the
processingProgress map (the WebSocket fan-out carries no state the
claims depend on). -/
def broadcastProgress (s : ServerState) (fileId : String) (p : JSNumber) :
    ServerState :=
  { s with progress := mapSet s.progress fileId p }

/-- routes/video.ts cancelProcessing: drop the progress-tracking entry. -/
def cancelProcessing (s : ServerState) (fileId : String) : ServerState :=
  { s with progress := mapDelete s.progress fileId }

/-- POST /api/video/process/:fileId: 404 when the job is unknown, 400
when its status is processing, otherwise set status processing and
launch the asynchronous pipeline. -/
def processRoute (s : ServerState) (fileId : String) :
    ServerState × ProcessResult :=
  match getJob s fileId with
  | none => (s, ProcessResult.notFound)
  | some job =>
      if job.status = Status.processing then (s, ProcessResult.alreadyProcessing)
      else (updateJobStatus s fileId Status.processing none, ProcessResult.started)

/-- POST /api/video/cancel/:fileId: 404 when unknown, 400 when not in
processing, otherwise cancelProcessing followed by
updateJobStatus(failed). -/
def cancelRoute (s : ServerState) (fileId : String) :
    ServerState × CancelResult :=
  match getJob s fileId with
  | none => (s, CancelResult.notFound)
  | some job =>
      if job.status = Status.processing then
        (updateJobStatus (cancelProcessing s fileId) fileId Status.failed none,
          CancelResult.cancelled)
      else (s, CancelResult.notProcessing)

/-- GET /api/video/status/:fileId: 404 when unknown; otherwise report
the stored status, max(0, expiresAt - now), whether a download URL is
offered (outputPath set), and progress (tracked value while
processing, else 100). -/
def statusRoute (s : ServerState) (fileId : String) (now : Nat) : StatusResult :=
  match getJob s fileId with
  | none => StatusResult.notFound
  | some job =>
      StatusResult.ok
        { status := job.status,
          timeRemaining := job.expiresAt - now,
          downloadUrl := job.outputPath.isSome,
          progress := if job.status = Status.processing
                      then getProcessingProgress s fileId else 100 }

/-- POST /api/upload: the upload handler writes the file to the shared
temporary directory (mtime now) and admits a job with a fresh record:
status processing, no outputPath, expiresAt = now + 15 minutes. -/
def uploadRoute (s : ServerState) (fileId filePath : String) (now : Nat) :
    ServerState :=
  addJob { s with files := mapSet s.files filePath now }
    { id := fileId, filePath := filePath, outputPath := none,
      createdAt := now, expiresAt := now + 15 * 60 * 1000,
      status := Status.processing }

/-- DELETE /api/upload/:fileId: 404 when unknown, otherwise removeJob. -/
def deleteRoute (s : ServerState) (fileId : String) : ServerState × Bool :=
  match getJob s fileId with
  | none => (s, false)
  | some _ => (removeJob s fileId, true)

/-- The progress callback of processVideoAsync in routes/video.ts: the
code computes totalProgress = 30 + progress * 0.7 and broadcasts
Math.round(totalProgress).  The callback parameter it multiplies is,
however, the whole ProcessingProgress object that
VideoProcessingService.processVideoWithBlur supplies, not its numeric
progress field; in JavaScript arithmetic the object coerces to NaN, so
Math.round(30 + NaN) = NaN is what gets recorded, whatever stage value
the object carries (kept here as the unused parameter). -/
def stageCallback (s : ServerState) (fileId : String) (_p : Nat) : ServerState :=
  broadcastProgress s fileId JSNumber.nan

/-- The stage progress values that
VideoProcessingService.processVideoWithBlur can pass to the callback:
the simulated transcoder reports min(2k, 95) for k = 1, 2, ... until
the counter reaches 95, then reports 100. -/
def stageReports : List Nat :=
  (List.range 48).map (fun i => min (2 * i + 2) 95) ++ [100]

/-- The spec formula for the rescaled overall progress, written from
the spec text: total = 30 + floor(stageProgress * 0.7).  Kept separate
from the code model stageCallback for comparison. -/
def specStageTotal (p : Nat) : Nat := 30 + 7 * p / 10

/-- The terminal transition of processVideoAsync on transcoder success:
updateJobStatus(completed, outputPath) then a 100 percent broadcast. -/
def completeJob (s : ServerState) (fileId outputPath : String) : ServerState :=
  broadcastProgress (updateJobStatus s fileId Status.completed (some outputPath))
    fileId (JSNumber.int 100)

/-- The catch branch of processVideoAsync: updateJobStatus(failed) then
a 0 percent broadcast. -/
def failJob (s : ServerState) (fileId : String) : ServerState :=
  broadcastProgress (updateJobStatus s fileId Status.failed none) fileId
    (JSNumber.int 0)

/-- The operations a claim trace may perform: the exposed routes, the
orchestrator events of processVideoAsync, and the reaper tick. -/
inductive Op
  | upload (fileId filePath : String) (now : Nat)
  | processReq (fileId : String)
  | startDetection (fileId : String)
  | detectDone (fileId : String)
  | stageProgress (fileId : String) (p : Nat)
  | complete (fileId outputPath : String)
  | fail (fileId : String)
  | cancelReq (fileId : String)
  | deleteReq (fileId : String)
  | sweep (expiryTimeMs now : Nat)

/-- One step of the system: dispatch the operation to the code it
models. -/
def step (s : ServerState) (op : Op) : ServerState :=
  match op with
  | Op.upload fid fp now => uploadRoute s fid fp now
  | Op.processReq fid => (processRoute s fid).1
  | Op.startDetection fid => broadcastProgress s fid (JSNumber.int 0)
  | Op.detectDone fid => broadcastProgress s fid (JSNumber.int 30)
  | Op.stageProgress fid p => stageCallback s fid p
  | Op.complete fid out => completeJob s fid out
  | Op.fail fid => failJob s fid
  | Op.cancelReq fid => (cancelRoute s fid).1
  | Op.deleteReq fid => (deleteRoute s fid).1
  | Op.sweep e now => cleanup s e now

/-- Run a trace of operations from a state. -/
def run (s : ServerState) (ops : List Op) : ServerState :=
  ops.foldl step s

/-- The state of a freshly started server: no jobs, no progress
entries, an empty temporary directory. -/
def initialState : ServerState :=
  { jobs := [], progress := [], files := [] }

/-! ### Helper lemmas about the map model -/

theorem mapGet_mapSet_self {α : Type} (m : List (String × α)) (k : String) (v : α) :
    mapGet (mapSet m k v) k = some v := by
  induction m with
  | nil => simp [mapSet, mapGet]
  | cons p t ih =>
      by_cases h : p.1 = k
      · simp [mapSet, mapGet, h]
      · simp [mapSet, mapGet, h, ih]

theorem mapGet_mapSet_ne {α : Type} (m : List (String × α)) (k k2 : String) (v : α)
    (h : k ≠ k2) : mapGet (mapSet m k v) k2 = mapGet m k2 := by
  induction m with
  | nil => simp [mapSet, mapGet, h]
  | cons p t ih =>
      by_cases hp : p.1 = k
      · simp [mapSet, mapGet, hp, h]
      · by_cases hp2 : p.1 = k2
        · simp [mapSet, mapGet, hp, hp2, Ne.symm h]
        · simp [mapSet, mapGet, hp, hp2, ih]

theorem mapGet_mapDelete_self {α : Type} (m : List (String × α)) (k : String) :
    mapGet (mapDelete m k) k = none := by
  induction m with
  | nil => simp [mapDelete, mapGet]
  | cons p t ih =>
      by_cases h : p.1 = k
      · simp [mapDelete, h, ih]
      · simp [mapDelete, mapGet, h, ih]

theorem mapGet_mapDelete_ne {α : Type} (m : List (String × α)) (k k2 : String)
    (h : k ≠ k2) : mapGet (mapDelete m k) k2 = mapGet m k2 := by
  induction m with
  | nil => simp [mapDelete]
  | cons p t ih =>
      by_cases hp : p.1 = k
      · have hp2 : ¬ p.1 = k2 := by
          rw [hp]
          exact h
        simp [mapDelete, mapGet, hp, hp2, ih, h]
      · by_cases hp2 : p.1 = k2
        · simp [mapDelete, mapGet, hp, hp2, Ne.symm h]
        · simp [mapDelete, mapGet, hp, hp2, ih]

theorem mapGet_some_mem {α : Type} (m : List (String × α)) (k : String) (v : α)
    (h : mapGet m k = some v) : (k, v) ∈ m := by
  induction m with
  | nil => simp [mapGet] at h
  | cons p t ih =>
      by_cases hp : p.1 = k
      · rw [mapGet, if_pos hp] at h
        have hv : p.2 = v := Option.some.inj h
        have : p = (k, v) := by
          cases p
          simp_all
        rw [← this]
        exact List.mem_cons_self _ _
      · rw [mapGet, if_neg hp] at h
        exact List.mem_cons_of_mem _ (ih h)

/-! ### Helper lemmas about the service operations -/

theorem getJob_broadcastProgress (s : ServerState) (fid fid2 : String)
    (p : JSNumber) :
    getJob (broadcastProgress s fid p) fid2 = getJob s fid2 := rfl

theorem getJob_cancelProcessing (s : ServerState) (fid fid2 : String) :
    getJob (cancelProcessing s fid) fid2 = getJob s fid2 := rfl

theorem getJob_cleanupTempFiles (s : ServerState) (e now : Nat) (fid : String) :
    getJob (cleanupTempFiles s e now) fid = getJob s fid := rfl

theorem getJob_updateJobStatus_self (s : ServerState) (fid : String) (st : Status)
    (op : Option String) (j : FileJob) (h : getJob s fid = some j) :
    getJob (updateJobStatus s fid st op) fid
      = some { j with
          status := st,
          outputPath := match op with | some p => some p | none => j.outputPath } := by
  unfold updateJobStatus
  unfold getJob at h
  rw [h]
  simp only [getJob]
  exact mapGet_mapSet_self _ _ _

theorem getJob_removeJob_self (s : ServerState) (fid : String) :
    getJob (removeJob s fid) fid = none := by
  unfold removeJob
  cases h : mapGet s.jobs fid with
  | none => exact h
  | some j => simp only [getJob]; exact mapGet_mapDelete_self _ _

theorem getJob_removeJob_ne (s : ServerState) (k fid : String) (h : k ≠ fid) :
    getJob (removeJob s k) fid = getJob s fid := by
  unfold removeJob
  cases hk : mapGet s.jobs k with
  | none => rfl
  | some j => simp only [getJob]; exact mapGet_mapDelete_ne _ _ _ h

theorem getJob_foldl_removeJob_of_none (l : List String) (s : ServerState)
    (fid : String) (h : getJob s fid = none) :
    getJob (l.foldl removeJob s) fid = none := by
  induction l generalizing s with
  | nil => exact h
  | cons a t ih =>
      rw [List.foldl_cons]
      apply ih
      by_cases ha : a = fid
      · rw [ha]
        exact getJob_removeJob_self _ _
      · rw [getJob_removeJob_ne _ _ _ ha]
        exact h

theorem getJob_foldl_removeJob_of_mem (l : List String) (s : ServerState)
    (fid : String) (h : fid ∈ l) :
    getJob (l.foldl removeJob s) fid = none := by
  induction l generalizing s with
  | nil => simp at h
  | cons a t ih =>
      rw [List.foldl_cons]
      by_cases ha : a = fid
      · apply getJob_foldl_removeJob_of_none
        rw [ha]
        exact getJob_removeJob_self _ _
      · apply ih
        rcases List.mem_cons.1 h with h1 | h1
        · exact absurd h1.symm ha
        · exact h1

theorem getJob_foldl_removeJob_of_not_mem (l : List String) (s : ServerState)
    (fid : String) (h : fid ∉ l) :
    getJob (l.foldl removeJob s) fid = getJob s fid := by
  induction l generalizing s with
  | nil => rfl
  | cons a t ih =>
      rw [List.foldl_cons]
      have ha : a ≠ fid := fun hh => h (hh ▸ List.mem_cons_self _ _)
      rw [ih _ (fun hh => h (List.mem_cons_of_mem _ hh))]
      exact getJob_removeJob_ne _ _ _ ha

theorem mem_expiredJobs_of_expired (jobs : List (String × FileJob)) (now : Nat)
    (fid : String) (j : FileJob) (h : mapGet jobs fid = some j)
    (hx : now > j.expiresAt) : fid ∈ expiredJobs jobs now := by
  induction jobs with
  | nil => simp [mapGet] at h
  | cons p t ih =>
      by_cases hp : p.1 = fid
      · rw [mapGet, if_pos hp] at h
        have hj : p.2 = j := Option.some.inj h
        rw [expiredJobs, if_pos (hj ▸ hx)]
        rw [hp]
        exact List.mem_cons_self _ _
      · rw [mapGet, if_neg hp] at h
        rw [expiredJobs]
        by_cases hc : now > p.2.expiresAt
        · rw [if_pos hc]
          exact List.mem_cons_of_mem _ (ih h)
        · rw [if_neg hc]
          exact ih h

theorem mem_keys_of_mem_expiredJobs (jobs : List (String × FileJob)) (now : Nat)
    (x : String) (h : x ∈ expiredJobs jobs now) : x ∈ jobs.map Prod.fst := by
  induction jobs with
  | nil => simp [expiredJobs] at h
  | cons p t ih =>
      rw [expiredJobs] at h
      by_cases hc : now > p.2.expiresAt
      · rw [if_pos hc] at h
        rcases List.mem_cons.1 h with h1 | h1
        · rw [List.map_cons, h1]
          exact List.mem_cons_self _ _
        · exact List.mem_cons_of_mem _ (ih h1)
      · rw [if_neg hc] at h
        exact List.mem_cons_of_mem _ (ih h)

theorem not_mem_expiredJobs_of_alive (jobs : List (String × FileJob)) (now : Nat)
    (fid : String) (j : FileJob) (hnodup : (jobs.map Prod.fst).Nodup)
    (h : mapGet jobs fid = some j) (hx : ¬ now > j.expiresAt) :
    fid ∉ expiredJobs jobs now := by
  induction jobs with
  | nil => simp [expiredJobs]
  | cons p t ih =>
      rw [List.map_cons, List.nodup_cons] at hnodup
      by_cases hp : p.1 = fid
      · rw [mapGet, if_pos hp] at h
        have hj : p.2 = j := Option.some.inj h
        rw [expiredJobs, if_neg (hj ▸ hx)]
        intro hmem
        exact hnodup.1 (hp ▸ mem_keys_of_mem_expiredJobs t now fid hmem)
      · rw [mapGet, if_neg hp] at h
        rw [expiredJobs]
        by_cases hc : now > p.2.expiresAt
        · rw [if_pos hc]
          intro hmem
          rcases List.mem_cons.1 hmem with h1 | h1
          · exact hp h1.symm
          · exact ih hnodup.2 h h1
        · rw [if_neg hc]
          exact ih hnodup.2 h

/-! ### Helper lemmas about file deletion -/

theorem mem_deleteFileIfExists (files : List (String × Nat)) (path : String)
    (x : String × Nat) (h : x ∈ deleteFileIfExists files path) :
    x ∈ files ∧ x.1 ≠ path := by
  induction files with
  | nil => simp [deleteFileIfExists] at h
  | cons f t ih =>
      rw [deleteFileIfExists] at h
      by_cases hf : f.1 = path
      · rw [if_pos hf] at h
        exact ⟨List.mem_cons_of_mem _ (ih h).1, (ih h).2⟩
      · rw [if_neg hf] at h
        rcases List.mem_cons.1 h with h1 | h1
        · exact ⟨h1 ▸ List.mem_cons_self _ _, h1 ▸ hf⟩
        · exact ⟨List.mem_cons_of_mem _ (ih h1).1, (ih h1).2⟩

theorem mem_files_removeJob (s : ServerState) (k : String) (x : String × Nat)
    (h : x ∈ (removeJob s k).files) : x ∈ s.files := by
  unfold removeJob at h
  cases hk : mapGet s.jobs k with
  | none => rw [hk] at h; exact h
  | some j =>
      rw [hk] at h
      simp only at h
      cases ho : j.outputPath with
      | none =>
          rw [ho] at h
          exact (mem_deleteFileIfExists _ _ _ h).1
      | some out =>
          rw [ho] at h
          exact (mem_deleteFileIfExists _ _ _ ((mem_deleteFileIfExists _ _ _ h).1)).1

theorem not_mem_files_removeJob_self (s : ServerState) (fid : String) (j : FileJob)
    (h : getJob s fid = some j) (path : String)
    (hp : path = j.filePath ∨ j.outputPath = some path) (mt : Nat) :
    (path, mt) ∉ (removeJob s fid).files := by
  unfold getJob at h
  unfold removeJob
  rw [h]
  simp only
  intro hmem
  rcases hp with hp | hp
  · cases ho : j.outputPath with
    | none =>
        rw [ho] at hmem
        exact (mem_deleteFileIfExists _ _ _ hmem).2 hp
    | some out =>
        rw [ho] at hmem
        exact (mem_deleteFileIfExists _ _ _ ((mem_deleteFileIfExists _ _ _ hmem).1)).2 hp
  · rw [hp] at hmem
    exact (mem_deleteFileIfExists _ _ _ hmem).2 rfl

theorem not_mem_files_foldl_removeJob (l : List String) (s : ServerState)
    (x : String × Nat) (h : x ∉ s.files) :
    x ∉ (l.foldl removeJob s).files := by
  induction l generalizing s with
  | nil => exact h
  | cons a t ih =>
      rw [List.foldl_cons]
      exact ih _ (fun hmem => h (mem_files_removeJob _ _ _ hmem))

theorem files_foldl_removeJob_of_mem (l : List String) (s : ServerState)
    (fid : String) (j : FileJob) (h : getJob s fid = some j) (hm : fid ∈ l)
    (path : String) (hp : path = j.filePath ∨ j.outputPath = some path) (mt : Nat) :
    (path, mt) ∉ (l.foldl removeJob s).files := by
  induction l generalizing s with
  | nil => simp at hm
  | cons a t ih =>
      rw [List.foldl_cons]
      by_cases ha : a = fid
      · apply not_mem_files_foldl_removeJob
        rw [ha]
        exact not_mem_files_removeJob_self s fid j h path hp mt
      · have hm2 : fid ∈ t := by
          rcases List.mem_cons.1 hm with h1 | h1
          · exact absurd h1.symm ha
          · exact h1
        apply ih _ _ hm2
        rw [getJob_removeJob_ne _ _ _ ha]
        exact h

theorem mem_cleanupTempFilesList (files : List (String × Nat)) (e now : Nat)
    (f : String × Nat) :
    f ∈ cleanupTempFilesList files e now ↔ f ∈ files ∧ ¬ now - f.2 > e := by
  induction files with
  | nil => simp [cleanupTempFilesList]
  | cons g t ih =>
      rw [cleanupTempFilesList]
      by_cases hg : now - g.2 > e
      · rw [if_pos hg, ih]
        constructor
        · intro hf
          exact ⟨List.mem_cons_of_mem _ hf.1, hf.2⟩
        · intro hf
          rcases List.mem_cons.1 hf.1 with h1 | h1
          · exact absurd (h1 ▸ hg) hf.2
          · exact ⟨h1, hf.2⟩
      · rw [if_neg hg]
        constructor
        · intro hf
          rcases List.mem_cons.1 hf with h1 | h1
          · exact ⟨h1 ▸ List.mem_cons_self _ _, h1 ▸ hg⟩
          · exact ⟨List.mem_cons_of_mem _ (ih.1 h1).1, (ih.1 h1).2⟩
        · intro hf
          rcases List.mem_cons.1 hf.1 with h1 | h1
          · rw [h1]
            exact List.mem_cons_self _ _
          · exact List.mem_cons_of_mem _ (ih.2 ⟨h1, hf.2⟩)

/-! ### Claim C1 -/

/-- Claim C1 counterexample: admit a job, cancel it while it is in the
processing state (the cancel route accepts and the status becomes
failed), then let the transcoding capability report success; the final
status is completed, so the status did subsequently become completed,
refuting the claim at this concrete trace. -/
theorem C1_cancel_then_success_counterexample :
    (cancelRoute (run initialState [Op.upload "j" "/in" 0]) "j").2
      = CancelResult.cancelled
    ∧ (getJob (run initialState [Op.upload "j" "/in" 0, Op.cancelReq "j"]) "j").map
        FileJob.status = some Status.failed
    ∧ (getJob (run initialState
        [Op.upload "j" "/in" 0, Op.cancelReq "j", Op.complete "j" "/out"]) "j").map
        FileJob.status = some Status.completed := by
  exact ⟨by decide, by decide, by decide⟩

/-- Claim C1 amended: a cancel registered while the job is processing
immediately pins the status to failed, but when the transcoding
capability later reports success with an output path the completion
handler overwrites the status to completed; the race is resolved
last-writer-wins, cancellation is not final. -/
theorem C1_cancel_last_writer_wins (s : ServerState) (fid out : String)
    (j : FileJob) (h : getJob s fid = some j)
    (hp : j.status = Status.processing) :
    (cancelRoute s fid).2 = CancelResult.cancelled
    ∧ (getJob (cancelRoute s fid).1 fid).map FileJob.status = some Status.failed
    ∧ (getJob (completeJob (cancelRoute s fid).1 fid out) fid).map FileJob.status
        = some Status.completed := by
  have hc : cancelRoute s fid
      = (updateJobStatus (cancelProcessing s fid) fid Status.failed none,
          CancelResult.cancelled) := by
    unfold cancelRoute
    rw [h]
    simp [hp]
  have h2 : getJob (cancelProcessing s fid) fid = some j := by
    rw [getJob_cancelProcessing]
    exact h
  have h3 : getJob (cancelRoute s fid).1 fid = some { j with status := Status.failed } := by
    rw [hc]
    rw [getJob_updateJobStatus_self _ _ _ _ _ h2]
  refine ⟨by rw [hc], by rw [h3]; rfl, ?_⟩
  unfold completeJob
  rw [getJob_broadcastProgress]
  rw [getJob_updateJobStatus_self _ _ _ _ _ h3]
  rfl

/-- Witness for C1: the amended theorem applied to the concrete trace
of the counterexample. -/
theorem C1_cancel_last_writer_wins_witness :
    (cancelRoute (run initialState [Op.upload "j" "/in" 0]) "j").2
      = CancelResult.cancelled
    ∧ (getJob (cancelRoute (run initialState [Op.upload "j" "/in" 0]) "j").1 "j").map
        FileJob.status = some Status.failed
    ∧ (getJob (completeJob (cancelRoute (run initialState [Op.upload "j" "/in" 0]) "j").1
        "j" "/out") "j").map FileJob.status = some Status.completed :=
  C1_cancel_last_writer_wins (run initialState [Op.upload "j" "/in" 0]) "j" "/out"
    { id := "j", filePath := "/in", outputPath := none, createdAt := 0,
      expiresAt := 900000, status := Status.processing } (by decide) rfl

/-! ### Claim C2 -/

/-- Claim C2 counterexample: a job that has reached the terminal state
completed is accepted by a later process request, which moves its
status back to processing; terminal states are not preserved by the
exposed operations, refuting the claim at this concrete trace. -/
theorem C2_terminal_not_sticky_counterexample :
    (getJob (run initialState [Op.upload "j" "/in" 0, Op.complete "j" "/out"]) "j").map
        FileJob.status = some Status.completed
    ∧ (processRoute (run initialState
        [Op.upload "j" "/in" 0, Op.complete "j" "/out"]) "j").2
        = ProcessResult.started
    ∧ (getJob (run initialState
        [Op.upload "j" "/in" 0, Op.complete "j" "/out", Op.processReq "j"]) "j").map
        FileJob.status = some Status.processing := by
  exact ⟨by decide, by decide, by decide⟩

/-- Claim C2 amended: a terminal status is not sticky.  The process
route rejects a start request only when the status is currently
processing; on a job whose status is completed or failed the request
is accepted and the status moves back to processing. -/
theorem C2_terminal_reprocess (s : ServerState) (fid : String) (j : FileJob)
    (h : getJob s fid = some j) (ht : j.status ≠ Status.processing) :
    (processRoute s fid).2 = ProcessResult.started
    ∧ (getJob (processRoute s fid).1 fid).map FileJob.status
        = some Status.processing := by
  have hc : processRoute s fid
      = (updateJobStatus s fid Status.processing none, ProcessResult.started) := by
    unfold processRoute
    rw [h]
    simp [ht]
  refine ⟨by rw [hc], ?_⟩
  rw [hc]
  rw [getJob_updateJobStatus_self _ _ _ _ _ h]
  rfl

/-- Witness for C2: the amended theorem applied to a completed job. -/
theorem C2_terminal_reprocess_witness :
    (processRoute (run initialState
        [Op.upload "j" "/in" 0, Op.complete "j" "/out"]) "j").2
      = ProcessResult.started
    ∧ (getJob (processRoute (run initialState
        [Op.upload "j" "/in" 0, Op.complete "j" "/out"]) "j").1 "j").map
        FileJob.status = some Status.processing :=
  C2_terminal_reprocess (run initialState [Op.upload "j" "/in" 0, Op.complete "j" "/out"])
    "j"
    { id := "j", filePath := "/in", outputPath := some "/out", createdAt := 0,
      expiresAt := 900000, status := Status.completed } (by decide) (by decide)

/-! ### Claim C3 -/

/-- Claim C3 counterexample: a job admitted at time 0 expires at
900000; a status query at time 900001, before any reaper sweep, does
not return NotFound but reports the record with its stale processing
status, refuting the claim at this concrete input. -/
theorem C3_stale_query_counterexample :
    (getJob (run initialState [Op.upload "j" "/in" 0]) "j").map FileJob.expiresAt
      = some 900000
    ∧ statusRoute (run initialState [Op.upload "j" "/in" 0]) "j" 900001
      = StatusResult.ok
          { status := Status.processing, timeRemaining := 0,
            downloadUrl := false, progress := 0 } := by
  exact ⟨by decide, by decide⟩

/-- Claim C3 amended: after expiresAt has passed, a status query still
returns the stored record with its stale status until the next reaper
sweep; once a sweep runs at such a time the job is removed and later
queries return NotFound (bounded staleness, not instantaneous). -/
theorem C3_expired_visible_until_sweep (s : ServerState) (fid : String)
    (j : FileJob) (e now : Nat) (h : getJob s fid = some j)
    (hx : now > j.expiresAt) :
    statusRoute s fid now = StatusResult.ok
        { status := j.status, timeRemaining := j.expiresAt - now,
          downloadUrl := j.outputPath.isSome,
          progress := if j.status = Status.processing
                      then getProcessingProgress s fid else 100 }
    ∧ getJob (cleanup s e now) fid = none := by
  constructor
  · unfold statusRoute
    rw [h]
  · unfold cleanup
    rw [getJob_cleanupTempFiles]
    exact getJob_foldl_removeJob_of_mem _ _ _
      (mem_expiredJobs_of_expired s.jobs now fid j h hx)

/-- Witness for C3: the amended theorem applied to the expired job of
the counterexample, swept at time 900001. -/
theorem C3_expired_visible_until_sweep_witness :
    statusRoute (run initialState [Op.upload "j" "/in" 0]) "j" 900001
      = StatusResult.ok
          { status := Status.processing, timeRemaining := 900000 - 900001,
            downloadUrl := (none : Option String).isSome,
            progress := if (Status.processing = Status.processing)
                        then getProcessingProgress
                          (run initialState [Op.upload "j" "/in" 0]) "j" else 100 }
    ∧ getJob (cleanup (run initialState [Op.upload "j" "/in" 0]) 900000 900001) "j"
      = none :=
  C3_expired_visible_until_sweep (run initialState [Op.upload "j" "/in" 0]) "j"
    { id := "j", filePath := "/in", outputPath := none, createdAt := 0,
      expiresAt := 900000, status := Status.processing } 900000 900001
    (by decide) (by decide)

/-! ### Claim C4 -/

/-- Claim C4 counterexample: admit a job, complete it (outputPath is
set), then issue a new process request; the resulting reachable record
has status processing while still carrying the outputPath, refuting
the if-and-only-if at this concrete trace. -/
theorem C4_outputPath_counterexample :
    getJob (run initialState
        [Op.upload "j" "/in" 0, Op.complete "j" "/out", Op.processReq "j"]) "j"
      = some { id := "j", filePath := "/in", outputPath := some "/out",
               createdAt := 0, expiresAt := 900000,
               status := Status.processing } := by
  decide

/-- Claim C4 amended: a freshly admitted job has no outputPath, and
updateJobStatus sets outputPath exactly when one is supplied and never
clears it; hence a completion sets it, but a later transition of the
same record to processing or failed retains the old outputPath, so a
set outputPath does not imply status completed. -/
theorem C4_outputPath_never_cleared (s s2 : ServerState) (fid fid2 fp : String)
    (now : Nat) (st : Status) (j : FileJob) (h : getJob s fid = some j) :
    (getJob (uploadRoute s2 fid2 fp now) fid2).map FileJob.outputPath = some none
    ∧ (getJob (updateJobStatus s fid st none) fid).map FileJob.outputPath
        = some j.outputPath
    ∧ ∀ p, (getJob (updateJobStatus s fid st (some p)) fid).map FileJob.outputPath
        = some (some p) := by
  refine ⟨?_, ?_, ?_⟩
  · unfold uploadRoute addJob getJob
    simp only
    rw [mapGet_mapSet_self]
    rfl
  · rw [getJob_updateJobStatus_self _ _ _ _ _ h]
    rfl
  · intro p
    rw [getJob_updateJobStatus_self _ _ _ _ _ h]
    rfl

/-- Witness for C4: the amended theorem applied to a concrete
completed job and a fresh upload. -/
theorem C4_outputPath_never_cleared_witness :
    (getJob (uploadRoute initialState "k" "/g" 3) "k").map FileJob.outputPath
      = some none
    ∧ (getJob (updateJobStatus (run initialState
        [Op.upload "j" "/in" 0, Op.complete "j" "/out"]) "j" Status.failed none)
        "j").map FileJob.outputPath = some (some "/out")
    ∧ (getJob (updateJobStatus (run initialState
        [Op.upload "j" "/in" 0, Op.complete "j" "/out"]) "j" Status.failed
        (some "/q")) "j").map FileJob.outputPath = some (some "/q") := by
  have hmain := C4_outputPath_never_cleared
    (run initialState [Op.upload "j" "/in" 0, Op.complete "j" "/out"])
    initialState "j" "k" "/g" 3 Status.failed
    { id := "j", filePath := "/in", outputPath := some "/out", createdAt := 0,
      expiresAt := 900000, status := Status.completed } (by decide)
  exact ⟨hmain.1, hmain.2.1, hmain.2.2 "/q"⟩

/-! ### Claim C5 -/

/-- Claim C5, code evaluated at the failing input: the upload handler
admits every job with status processing, so the very first process
request on a freshly admitted job, before any start request was ever
issued, is rejected with the AlreadyProcessing error instead of being
accepted.  The documented upload-then-process flow can therefore never
start processing, which contradicts the README and the intended
semantics of the AlreadyProcessing error (duplicate start request). -/
theorem C5_first_start_rejected :
    (getJob (run initialState [Op.upload "j" "/in" 0]) "j").map FileJob.status
      = some Status.processing
    ∧ (processRoute (run initialState [Op.upload "j" "/in" 0]) "j").2
      = ProcessResult.alreadyProcessing := by
  exact ⟨by decide, by decide⟩

/-! ### Claim C6 -/

/-- Claim C6 counterexample: a record whose expiresAt equals the sweep
time is not selected for removal, because the code compares with
strict inequality (now > expiresAt); the claim says a record with
expiresAt equal to now is removed, refuted at this concrete input. -/
theorem C6_boundary_counterexample :
    getJob (run initialState [Op.upload "j" "/in" 0, Op.sweep 900000 900000]) "j"
      = some { id := "j", filePath := "/in", outputPath := none, createdAt := 0,
               expiresAt := 900000, status := Status.processing } := by
  decide

/-- Claim C6 amended: on each tick the sweep selects exactly the
snapshot records whose expiresAt is strictly before now (a record with
expiresAt equal to now survives), and every selected record is removed
from the registry with deletion of its input file and, when set, its
output file. -/
theorem C6_sweep_selects_strictly_expired (s : ServerState) (e now : Nat)
    (fid : String) (j : FileJob) (hnodup : (s.jobs.map Prod.fst).Nodup)
    (h : getJob s fid = some j) :
    getJob (cleanup s e now) fid = (if now > j.expiresAt then none else some j)
    ∧ (now > j.expiresAt → ∀ mt,
        (j.filePath, mt) ∉ (cleanup s e now).files
        ∧ ∀ out, j.outputPath = some out → (out, mt) ∉ (cleanup s e now).files) := by
  constructor
  · by_cases hx : now > j.expiresAt
    · rw [if_pos hx]
      unfold cleanup
      rw [getJob_cleanupTempFiles]
      exact getJob_foldl_removeJob_of_mem _ _ _
        (mem_expiredJobs_of_expired s.jobs now fid j h hx)
    · rw [if_neg hx]
      unfold cleanup
      rw [getJob_cleanupTempFiles]
      rw [getJob_foldl_removeJob_of_not_mem _ _ _
        (not_mem_expiredJobs_of_alive s.jobs now fid j hnodup h hx)]
      exact h
  · intro hx mt
    have hmem := mem_expiredJobs_of_expired s.jobs now fid j h hx
    constructor
    · unfold cleanup cleanupTempFiles
      simp only
      intro hin
      rw [mem_cleanupTempFilesList] at hin
      exact files_foldl_removeJob_of_mem _ s fid j h hmem j.filePath (Or.inl rfl) mt
        hin.1
    · intro out hout
      unfold cleanup cleanupTempFiles
      simp only
      intro hin
      rw [mem_cleanupTempFilesList] at hin
      exact files_foldl_removeJob_of_mem _ s fid j h hmem out (Or.inr hout) mt hin.1

/-- Witness for C6: the amended theorem applied to a job uploaded at
time 0 and swept at time 900001, past its expiry. -/
theorem C6_sweep_selects_strictly_expired_witness :
    getJob (cleanup (run initialState [Op.upload "j" "/in" 0]) 900000 900001) "j"
      = none
    ∧ ("/in", (5 : Nat))
        ∉ (cleanup (run initialState [Op.upload "j" "/in" 0]) 900000 900001).files := by
  have hmain := C6_sweep_selects_strictly_expired
    (run initialState [Op.upload "j" "/in" 0]) 900000 900001 "j"
    { id := "j", filePath := "/in", outputPath := none, createdAt := 0,
      expiresAt := 900000, status := Status.processing } (by decide) (by decide)
  exact ⟨hmain.1, (hmain.2 (by decide) 5).1⟩

/-! ### Claim C7 -/

/-- Claim C7 counterexample: 95 is a stage value the transcoding
capability reports, and the claimed formula gives 30 + floor(95 * 0.7)
= 96; but after that report the recorded progress entry is NaN, since
the callback multiplies the ProcessingProgress object rather than a
number, and a status query on the still-processing job then reports
progress 0, so neither the recorded nor the broadcast value is 96,
refuting the claim at this concrete trace. -/
theorem C7_nan_counterexample :
    95 ∈ stageReports
    ∧ specStageTotal 95 = 96
    ∧ mapGet (run initialState
        [Op.upload "j" "/in" 0, Op.stageProgress "j" 95]).progress "j"
      = some JSNumber.nan
    ∧ reportedProgress (statusRoute (run initialState
        [Op.upload "j" "/in" 0, Op.stageProgress "j" 95]) "j" 5) = some 0 := by
  exact ⟨by decide, by decide, by decide, by decide⟩

/-- Claim C7 amended: for every stage progress report from the
transcoding capability, the orchestrator records NaN as the overall
progress: the callback coerces the ProcessingProgress object to NaN in
the arithmetic 30 + progress * 0.7, and Math.round(NaN) is NaN, so the
numeric rescale never receives a number.  A status query on the
processing job after such a report consequently shows progress 0, the
NaN entry being falsy in the or-0 default of getProcessingProgress. -/
theorem C7_stage_report_records_nan (s : ServerState) (fid : String) (p : Nat)
    (now : Nat) (j : FileJob) (h : getJob s fid = some j)
    (hp : j.status = Status.processing) :
    mapGet (stageCallback s fid p).progress fid = some JSNumber.nan
    ∧ reportedProgress (statusRoute (stageCallback s fid p) fid now) = some 0 := by
  have h1 : mapGet (stageCallback s fid p).progress fid = some JSNumber.nan := by
    unfold stageCallback broadcastProgress
    simp only
    exact mapGet_mapSet_self _ _ _
  have h2 : getJob (stageCallback s fid p) fid = some j := h
  have h3 : getProcessingProgress (stageCallback s fid p) fid = 0 := by
    unfold getProcessingProgress
    rw [h1]
  refine ⟨h1, ?_⟩
  unfold statusRoute
  rw [h2]
  unfold reportedProgress
  simp [hp, h3]

/-- Witness for C7: the amended theorem applied to a freshly admitted
processing job and the reported stage value 95. -/
theorem C7_stage_report_records_nan_witness :
    mapGet (stageCallback (run initialState [Op.upload "j" "/in" 0]) "j" 95).progress
        "j" = some JSNumber.nan
    ∧ reportedProgress (statusRoute
        (stageCallback (run initialState [Op.upload "j" "/in" 0]) "j" 95) "j" 5)
      = some 0 :=
  C7_stage_report_records_nan (run initialState [Op.upload "j" "/in" 0]) "j" 95 5
    { id := "j", filePath := "/in", outputPath := none, createdAt := 0,
      expiresAt := 900000, status := Status.processing } (by decide) rfl

/-! ### Claim C8 -/

/-- Claim C8 counterexample: a second admission under an id already in
the registry does not fail; it silently replaces the existing record
(the stored filePath and timestamps change), refuting the claim that
the operation fails with DuplicateID and leaves the record unchanged. -/
theorem C8_duplicate_admit_counterexample :
    getJob (run initialState [Op.upload "j" "/a" 0, Op.upload "j" "/b" 7]) "j"
      = some { id := "j", filePath := "/b", outputPath := none, createdAt := 7,
               expiresAt := 900007, status := Status.processing } := by
  decide

/-- Claim C8 amended: addJob performs an unconditional store keyed by
the record id; when the id already exists the previous record is
silently overwritten, and no DuplicateID failure exists. -/
theorem C8_addJob_overwrites (s : ServerState) (job : FileJob) :
    getJob (addJob s job) job.id = some job := by
  unfold addJob getJob
  simp only
  exact mapGet_mapSet_self _ _ _

/-! ### Claim C9 -/

/-- Claim C9 counterexample: with a cleanup TTL of 300000 ms, a job
uploaded at time 0 is still tracked at time 300001 (its record expires
only at 900000), yet the orphan pass of the sweep deletes its input
file from the temporary directory because the file age exceeds the
TTL; a file tied to a tracked job is deleted, refuting the claim. -/
theorem C9_tracked_file_deleted_counterexample :
    (getJob (run initialState [Op.upload "j" "/t/f" 0, Op.sweep 300000 300001])
        "j").map FileJob.filePath = some "/t/f"
    ∧ ("/t/f", (0 : Nat))
        ∉ (run initialState [Op.upload "j" "/t/f" 0, Op.sweep 300000 300001]).files := by
  exact ⟨by decide, by decide⟩

/-- Claim C9 amended: the orphan-cleanup pass deletes a file exactly
when its age exceeds the TTL; it never consults the job registry, so
being tied to a tracked job does not protect a file, and the registry
itself is untouched by the pass. -/
theorem C9_orphan_cleanup_age_only (s : ServerState) (ttl now : Nat)
    (f : String × Nat) :
    (f ∈ (cleanupTempFiles s ttl now).files ↔ f ∈ s.files ∧ ¬ now - f.2 > ttl)
    ∧ (cleanupTempFiles s ttl now).jobs = s.jobs :=
  ⟨mem_cleanupTempFilesList s.files ttl now f, rfl⟩

/-! ### Claim C10 -/

/-- Claim C10: for a tracked job whose status is not processing,
including a failed job, the status query reports progress 100; for a
job in the processing state with no progress entry recorded, it
reports progress 0.  This is exactly what the status route computes. -/
theorem C10_progress_reporting (s : ServerState) (fid : String) (j : FileJob)
    (now : Nat) (h : getJob s fid = some j) :
    (j.status ≠ Status.processing →
      reportedProgress (statusRoute s fid now) = some 100)
    ∧ (j.status = Status.processing → mapGet s.progress fid = none →
      reportedProgress (statusRoute s fid now) = some 0) := by
  have hs : statusRoute s fid now = StatusResult.ok
      { status := j.status, timeRemaining := j.expiresAt - now,
        downloadUrl := j.outputPath.isSome,
        progress := if j.status = Status.processing
                    then getProcessingProgress s fid else 100 } := by
    unfold statusRoute
    rw [h]
  constructor
  · intro ht
    rw [hs]
    unfold reportedProgress
    simp [ht]
  · intro ht hnone
    rw [hs]
    unfold reportedProgress
    simp [ht, getProcessingProgress, hnone]

/-- Witness for C10: a failed job reports progress 100 and a freshly
admitted processing job with no recorded progress reports 0. -/
theorem C10_progress_reporting_witness :
    reportedProgress (statusRoute (run initialState
        [Op.upload "j" "/in" 0, Op.fail "j"]) "j" 5) = some 100
    ∧ reportedProgress (statusRoute (run initialState
        [Op.upload "j" "/in" 0]) "j" 5) = some 0 := by
  constructor
  · exact (C10_progress_reporting _ "j"
      { id := "j", filePath := "/in", outputPath := none, createdAt := 0,
        expiresAt := 900000, status := Status.failed } 5 (by decide)).1 (by decide)
  · exact (C10_progress_reporting _ "j"
      { id := "j", filePath := "/in", outputPath := none, createdAt := 0,
        expiresAt := 900000, status := Status.processing } 5 (by decide)).2 rfl
      (by decide)

end PenguinBlur
